import Mathlib

/-!
Verification development for the learning-curve driver
`LearningCurves/main_lrn_crv.py`.

The driver is shallowly embedded: Python values relevant to control flow
become an inductive `PyVal`, Python exceptions become `PyErr`, and the
side effects of `run` (file reads, directory creation, the construction
and invocation of the external `LearningCurve` engine) become an explicit
`Event` trace.  The engine itself (`lrn_crv.py`) is not part of the
sources; the parts of it needed by the statements below are modelled from
the specification and are marked as such in their doc comments.
-/

/-- Python exceptions that the driver can raise. -/
inductive PyErr
  | typeError
  | valueError
  | nameError (n : String)
  | attributeError
  | keyError (k : String)
  | fileNotFoundError (p : String)
deriving DecidableEq

/-- The Python values that the driver's control flow inspects. -/
inductive PyVal
  | none
  | bool (b : Bool)
  | str (s : String)
  | path (p : String)
deriving DecidableEq

/-- Python truthiness: `None` is falsy, a string is truthy iff non-empty,
a `pathlib.Path` object is always truthy. -/
def pyTruthy : PyVal → Bool
  | .none => false
  | .bool b => b
  | .str s => !s.isEmpty
  | .path _ => true

/-- Python `or`: returns the left operand when it is truthy, otherwise the
right operand. -/
def pyOr (a b : PyVal) : PyVal :=
  if pyTruthy a then a else b

/-- Python `needle in hay` on strings (substring test). -/
def pyIn (needle hay : String) : Bool :=
  decide (needle.toList <:+: hay.toList)

/-- `Path(x)` at line 127: raises `TypeError` when `x` is `None`,
otherwise yields the path string. -/
def pyPath : Option String → Except PyErr String
  | Option.none => Except.error PyErr.typeError
  | Option.some s => Except.ok s

/-- The Python test `v is not None`. -/
def pyIsNotNone : PyVal → Bool
  | .none => false
  | _ => true

/-- A pandas `DataFrame`: named columns and rows of numbers. -/
structure DF where
  cols : List String
  rows : List (List Rat)
deriving DecidableEq

/-- `df[[c]]`: single-column selection (line 199). -/
def dfSelect (d : DF) (c : String) : DF :=
  let i := d.cols.findIdx (· == c)
  ⟨[c], d.rows.map (fun r => [r.getD i 0])⟩

/-- The module-level constant `SEED = 42` (line 30). -/
def SEED : Nat := 42

/-- `OUTDIR = file_path / '../../out/' / PRJ_NAME` (line 49), as a plain
path string. -/
def OUTDIR : String := "out/LearningCurves"

/-- The cyclical-learning-rate dict built at lines 150-151. -/
structure ClrKwargs where
  mode : Option String
  base_lr : Rat
  max_lr : Rat
  gamma : Rat
deriving DecidableEq

/-- The shapes of the `init_kwargs` dicts built at lines 267-282 (the
`logger` entry, an opaque object, is omitted). -/
inductive InitKwargs
  | lgb (n_jobs : Nat) (random_state : Nat)
  | nn (input_dim : Nat) (dr_rate : Rat) (opt_name : String)
  | nn012 (input_dim : Nat) (dr_rate : Rat) (opt_name : String)
  | nn34 (dr_rate : Rat) (opt_name : String)
deriving DecidableEq

/-- The shapes of the `fit_kwargs` dicts built at lines 267-282. -/
inductive FitKwargs
  | lgbFit (verbose : Bool)
  | nnFit (batch_size : Nat) (epochs : Nat) (verbose : Nat)
deriving DecidableEq

/-- Observable side effects of `run`, in program order.  `engineConstruct`
records the arguments passed to the `LearningCurve` constructor at lines
293-295; `engineCall` records the arguments passed to
`trn_learning_curve` at lines 297-299. -/
inductive Event
  | readFile (p : String)
  | mkdir (p : String)
  | writeFile (p : String)
  | fitTransform (scalerName : String)
  | engineConstruct (n_shards : Nat) (shard_step_scale : String) (xcols : List String)
  | engineCall (framework : String) (mltype : String) (model_name : String)
      (random_state : Nat) (clr : ClrKwargs) (init : InitKwargs) (fit : FitKwargs)
deriving DecidableEq

/-- The `args` dict produced by `parse_args` (lines 52-106), one field per
`add_argument`. -/
structure Args where
  dirpath : Option String
  target_name : String
  cell_features : List String
  drug_features : List String
  other_features : List String
  cv_method : String
  cv_folds : Nat
  model_name : String
  epochs : Nat
  batch_size : Nat
  dr_rate : Rat
  scaler : Option String
  opt : String
  clr_mode : Option String
  clr_base_lr : Rat
  clr_max_lr : Rat
  clr_gamma : Rat
  n_shards : Nat
  n_jobs : Nat

/-- External state: the file system (path to file contents), the sklearn
scalers' `fit_transform` on raw values, and the timestamp taken by
`create_outdir`. -/
structure World where
  files : String → Option DF
  applyScaler : String → List (List Rat) → List (List Rat)
  timestamp : String

/-- `clr_keras_kwargs` as built at lines 150-151. -/
def mkClr (a : Args) : ClrKwargs :=
  ⟨a.clr_mode, a.clr_base_lr, a.clr_max_lr, a.clr_gamma⟩

/-- The mltype dispatch at lines 162-167. -/
def mltypeOf (model_name : String) : Except PyErr String :=
  if pyIn "reg" model_name then Except.ok "reg"
  else if pyIn "cls" model_name then Except.ok "cls"
  else Except.error PyErr.valueError

/-- The condition of line 275, `model_name == 'nn_reg0' or 'nn_reg1' or
'nn_reg2'`, with Python operator precedence: `==` binds tighter than
`or`, so the disjuncts are the boolean comparison and two string
literals. -/
def cond3 (model_name : String) : Bool :=
  pyTruthy (pyOr (pyOr (PyVal.bool (model_name == "nn_reg0")) (PyVal.str "nn_reg1"))
    (PyVal.str "nn_reg2"))

/-- The condition of line 279, `model_name == 'nn_reg3' or 'nn_reg4'`,
with the same precedence reading. -/
def cond4 (model_name : String) : Bool :=
  pyTruthy (pyOr (PyVal.bool (model_name == "nn_reg3")) (PyVal.str "nn_reg4"))

/-- The names bound at module level in `main_lrn_crv.py` (imports and
top-level assignments).  Note `attn` is not among them. -/
def moduleGlobals : List String :=
  ["os", "sys", "Path", "argparse", "datetime", "time", "pprint", "pformat",
   "OrderedDict", "glob", "matplotlib", "plt", "sklearn", "np", "pd",
   "StandardScaler", "MinMaxScaler", "RobustScaler", "SEED", "file_path",
   "utils_path", "utils", "Logger", "LearningCurve", "PRJ_NAME", "OUTDIR",
   "parse_args", "create_outdir", "run", "main", "warnings"]

/-- Evaluation of a global name: `NameError` when the name is unbound. -/
def lookupGlobal (n : String) : Except PyErr Unit :=
  if n ∈ moduleGlobals then Except.ok () else Except.error (PyErr.nameError n)

/-- The model-configuration dispatch at lines 267-282.  A result of
`ok none` means no branch matched, leaving `framework`, `init_kwargs` and
`fit_kwargs` unbound (the chain has no `else`).  The `nn_reg` branch at
line 273 evaluates the unbound name `attn`. -/
def modelConfigStep (model_name : String) (n_jobs input_dim : Nat) (dr_rate : Rat)
    (opt_name : String) (batch_size epochs : Nat) :
    Except PyErr (Option (String × InitKwargs × FitKwargs)) :=
  if model_name = "lgb_reg" then
    Except.ok (Option.some ("lightgbm", InitKwargs.lgb n_jobs SEED, FitKwargs.lgbFit false))
  else if model_name = "nn_reg" then
    match lookupGlobal "attn" with
    | Except.error e => Except.error e
    | Except.ok _ =>
      Except.ok (Option.some ("keras", InitKwargs.nn input_dim dr_rate opt_name,
        FitKwargs.nnFit batch_size epochs 1))
  else if cond3 model_name then
    Except.ok (Option.some ("keras", InitKwargs.nn012 input_dim dr_rate opt_name,
      FitKwargs.nnFit batch_size epochs 1))
  else if cond4 model_name then
    Except.ok (Option.some ("keras", InitKwargs.nn34 dr_rate opt_name,
      FitKwargs.nnFit batch_size epochs 1))
  else Except.ok Option.none

/-- Lines 239-249: map the `scaler` string to a scaler object and apply
`fit_transform`, rebuilding the DataFrame with the captured column list.
A `None` or unrecognized scaler reaches line 249 unconverted and fails
there with `AttributeError` (no `fit_transform` attribute). -/
def scaleResult (w : World) (sarg : Option String) (x : DF) : Except PyErr (String × DF) :=
  match sarg with
  | Option.none => Except.error PyErr.attributeError
  | Option.some s =>
    if s = "stnd" then Except.ok (s, ⟨x.cols, w.applyScaler s x.rows⟩)
    else if s = "minmax" then Except.ok (s, ⟨x.cols, w.applyScaler s x.rows⟩)
    else if s = "rbst" then Except.ok (s, ⟨x.cols, w.applyScaler s x.rows⟩)
    else Except.error PyErr.attributeError

/-- `Path.name` of a path string. -/
def pathName (p : String) : String :=
  (p.splitOn "/").getLastD ""

/-- `dirpath.name.split('_')[0]` (line 208). -/
def srcOf (dp : String) : String :=
  ((pathName dp).splitOn "_").headD ""

/-- The output directory name built by `create_outdir` (lines 109-123). -/
def outdirName (w : World) (a : Args) (src : String) : String :=
  let l0 := ("cvf" ++ toString a.cv_folds) ::
    (a.cell_features ++ a.drug_features ++ [a.target_name])
  let l1 := match a.clr_mode with
    | Option.none => l0
    | Option.some cm => cm :: l0
  let l2 := if pyIn "nn" a.model_name then a.opt :: l1 else l1
  let sffx := String.intercalate "." (src :: a.model_name :: l2)
  OUTDIR ++ "/" ++ sffx ++ "_" ++ w.timestamp

/-- The events of `read_data_file` (lines 185-194): a read occurs only
when the file exists; otherwise the function returns `None` silently. -/
def optRead (o : Option DF) (p : String) : List Event :=
  match o with
  | Option.some _ => [Event.readFile p]
  | Option.none => []

/-- Lines 196-209: load `xdata.parquet`, `meta.parquet` and the two fold
index files.  `ydata = meta[[target_name]]` (line 199) raises `TypeError`
when `meta` is `None` and `KeyError` when the target column is absent;
`pd.read_csv` (lines 201-202) raises `FileNotFoundError` on a missing
file. -/
def loadPhase (w : World) (dp : String) (a : Args) :
    List Event × Except PyErr (String × DF × Option DF × DF × DF) :=
  let xp := dp ++ "/xdata.parquet"
  let mp := dp ++ "/meta.parquet"
  let xdata := w.files xp
  let meta := w.files mp
  let e12 := optRead xdata xp ++ optRead meta mp
  match meta with
  | Option.none => (e12, Except.error PyErr.typeError)
  | Option.some m =>
    if a.target_name ∈ m.cols then
      let ydata := dfSelect m a.target_name
      let tp := dp ++ "/" ++ toString a.cv_folds ++ "fold_tr_id.csv"
      let vp := dp ++ "/" ++ toString a.cv_folds ++ "fold_vl_id.csv"
      match w.files tp with
      | Option.none => (e12, Except.error (PyErr.fileNotFoundError tp))
      | Option.some tr =>
        match w.files vp with
        | Option.none => (e12 ++ [Event.readFile tp], Except.error (PyErr.fileNotFoundError vp))
        | Option.some vl =>
          (e12 ++ [Event.readFile tp, Event.readFile vp],
            Except.ok (srcOf dp, ydata, xdata, tr, vl))
    else (e12, Except.error (PyErr.keyError a.target_name))

/-- The body of the `for src, data in dfs.items()` loop (lines 235-336)
for one data source: scale the features (lines 239-249; `xdata.columns`
at line 248 raises `AttributeError` when `xdata` is `None`), create the
output directory and logger and dump the args (lines 255-261), run the
model-configuration dispatch (lines 267-282), construct the
`LearningCurve` engine (lines 293-295, with `shard_step_scale='log10'`
hardcoded) and invoke `trn_learning_curve` (lines 297-299, with
`random_state=SEED`). -/
def loopBody (w : World) (a : Args) (mltype : String) (clr : ClrKwargs) (src : String)
    (xdata : Option DF) : List Event × Except PyErr Unit :=
  match xdata with
  | Option.none => ([], Except.error PyErr.attributeError)
  | Option.some x =>
    match scaleResult w a.scaler x with
    | Except.error e => ([], Except.error e)
    | Except.ok (s, x2) =>
      let od := outdirName w a src
      let evs := [Event.fitTransform s, Event.mkdir od,
        Event.writeFile (od ++ "/logfile.log"), Event.writeFile (od ++ "/args.txt")]
      match modelConfigStep a.model_name a.n_jobs x2.cols.length a.dr_rate a.opt
          a.batch_size a.epochs with
      | Except.error e => (evs, Except.error e)
      | Except.ok Option.none =>
        (evs ++ [Event.engineConstruct a.n_shards "log10" x2.cols],
          Except.error (PyErr.nameError "framework"))
      | Except.ok (Option.some (fw, ik, fk)) =>
        (evs ++ [Event.engineConstruct a.n_shards "log10" x2.cols,
          Event.engineCall fw mltype a.model_name SEED clr ik fk],
          Except.ok ())

/-- The `run` function (lines 126-338): `Path(args['dirpath'])` first
(line 127), then the pure parameter reads including `clr_keras_kwargs`
(lines 132-159), the eager mltype dispatch (lines 162-167), the data
loading guarded by `if dirpath is not None` (lines 196-232; the `elif
dname == 'combined'` branch evaluates the unbound name `dname`), and the
per-source loop body. -/
def run (w : World) (a : Args) : List Event × Except PyErr Unit :=
  match pyPath a.dirpath with
  | Except.error e => ([], Except.error e)
  | Except.ok dp =>
    let clr := mkClr a
    match mltypeOf a.model_name with
    | Except.error e => ([], Except.error e)
    | Except.ok mltype =>
      if pyIsNotNone (PyVal.path dp) then
        match loadPhase w dp a with
        | (evs, Except.error e) => (evs, Except.error e)
        | (evs, Except.ok (src, _ydata, xdata, _tr, _vl)) =>
          let r := loopBody w a mltype clr src xdata
          (evs ++ r.1, r.2)
      else ([], Except.error (PyErr.nameError "dname"))

/-- Largest `r` with `r ^ k ≤ x` (the floor of the `k`-th root), used by
the geometric spacing model below. -/
def natRoot (k x : Nat) : Nat :=
  ((List.range (x + 2)).filter (fun r => r ^ k ≤ x)).foldl max 0

/-- Modelled from the spec: the log-scale candidate sizes of
ShardScheduler (`lrn_crv.py` is not in the sources).  Geometrically
spaced points between the minimum viable size `m` and `n_train = n`:
the `i`-th point is the integer floor of `m ^ ((k-1-i)/(k-1)) *
n ^ (i/(k-1))`. -/
def logCandidates (m n k : Nat) : List Nat :=
  (List.range k).map (fun i => natRoot (k - 1) (m ^ (k - 1 - i) * n ^ i))

/-- Modelled from the spec: the linear-scale candidate sizes of
ShardScheduler — evenly spaced integer fractions of `n_train = n`. -/
def linCandidates (n k : Nat) : List Nat :=
  (List.range k).map (fun i => ((i + 1) * n) / k)

/-- Drop values not strictly greater than everything kept so far
(the removal of duplicate or non-increasing rounded values). -/
def keepInc : Nat → List Nat → List Nat
  | _, [] => []
  | p, x :: xs => if p < x then x :: keepInc x xs else keepInc p xs

/-- Remove duplicate or non-increasing candidate values; shard sizes are
positive, so the threshold starts at 0. -/
def dedupeInc (l : List Nat) : List Nat := keepInc 0 l

/-- Modelled from the spec: ShardScheduler (`lrn_crv.py` is not in the
sources).  Given the minimum viable size `m`, the training-fold size `n`
and the requested tick count `k`, produce the shard-size sequence for the
given scale mode: geometric spacing for `log10`, evenly spaced fractions
otherwise, in both cases with duplicate or non-increasing values
removed. -/
def shardScheduler (scale : String) (m n k : Nat) : List Nat :=
  if scale = "log10" then dedupeInc (logCandidates m n k)
  else dedupeInc (linCandidates n k)

/-- A linear congruential pseudo-random generator (the fixed reproducible
stream seeded by the run seed). -/
def lcg (s : Nat) : Nat := (1103515245 * s + 12345) % 2147483648

/-- Fisher-Yates selection driven by `lcg`: at each step pick the element
indexed by the current stream value and recurse on the rest. -/
def shuffleGo : Nat → Nat → List Nat → List Nat
  | 0, _, l => l
  | _ + 1, _, [] => []
  | fuel + 1, s, x :: xs =>
    let l := x :: xs
    let i := s % l.length
    l.getD i 0 :: shuffleGo fuel (lcg s) (l.eraseIdx i)

/-- Modelled from the spec: the fixed, reproducible ordering of the
training-fold identifiers determined by the seed (ShardRunner's drawing
order; `lrn_crv.py` is not in the sources). -/
def seededShuffle (seed : Nat) (ids : List Nat) : List Nat :=
  shuffleGo ids.length seed ids

/-- An ambient, process-wide random stream.  A fresh-resample
implementation would consume it; the modelled ShardRunner does not. -/
structure RngState where
  stream : Nat
deriving DecidableEq

/-- Modelled from the spec: ShardRunner's shard-drawing step
(`lrn_crv.py` is not in the sources).  Given the ambient random state,
the run seed, the shard size and the training fold, draw the first
`size` identifiers of the seed-determined ordering; the ambient stream
is not consumed. -/
def drawShard (amb : RngState) (seed size : Nat) (train_ids : List Nat) :
    List Nat × RngState :=
  ((seededShuffle seed train_ids).take size, amb)

/-- A feature file for the concrete executions below. -/
def dfX : DF := ⟨["g1", "g2"], [[1, 2], [3, 4]]⟩

/-- A metadata file with the default target column. -/
def dfMeta : DF := ⟨["AUC"], [[1], [0]]⟩

/-- A fold-index file. -/
def dfId : DF := ⟨["fold0"], [[0], [1]]⟩

/-- A file system holding the four files `run` loads for one source. -/
def wOk : World :=
  ⟨fun p =>
    if p = "data/src1_cv/xdata.parquet" then Option.some dfX
    else if p = "data/src1_cv/meta.parquet" then Option.some dfMeta
    else if p = "data/src1_cv/5fold_tr_id.csv" then Option.some dfId
    else if p = "data/src1_cv/5fold_vl_id.csv" then Option.some dfId
    else Option.none,
   fun _ rows => rows, "ts"⟩

/-- The `args` dict of a default invocation (parser defaults plus a
data directory). -/
def aOk : Args where
  dirpath := Option.some "data/src1_cv"
  target_name := "AUC"
  cell_features := ["rna"]
  drug_features := ["dsc"]
  other_features := []
  cv_method := "simple"
  cv_folds := 5
  model_name := "lgb_reg"
  epochs := 200
  batch_size := 32
  dr_rate := 1
  scaler := Option.some "stnd"
  opt := "sgd"
  clr_mode := Option.none
  clr_base_lr := 1
  clr_max_lr := 2
  clr_gamma := 3
  n_shards := 5
  n_jobs := 4

theorem cond3_true (m : String) : cond3 m = true := by
  unfold cond3
  cases h : (m == "nn_reg0") <;> decide

theorem cond4_true (m : String) : cond4 m = true := by
  unfold cond4
  cases h : (m == "nn_reg3") <;> decide

theorem lookupGlobal_attn : lookupGlobal "attn" = Except.error (PyErr.nameError "attn") := by
  rfl

/-- C1: in `run`'s model-configuration dispatch, the condition
`model_name == 'nn_reg0' or 'nn_reg1' or 'nn_reg2'` always evaluates
true under Python precedence; hence for every `model_name` other than
`lgb_reg` and `nn_reg` that branch is taken, setting the framework to
`keras` with the `nn_reg0/1/2` kwargs, and the subsequent
`elif model_name == 'nn_reg3' or 'nn_reg4'` branch is unreachable: no
dispatch outcome ever carries the `nn_reg3/4` kwargs. -/
theorem claim_C1 (m : String) (nj idim bs ep : Nat) (dr : Rat) (opt : String) :
    cond3 m = true ∧
    (m ≠ "lgb_reg" → m ≠ "nn_reg" →
      modelConfigStep m nj idim dr opt bs ep =
        Except.ok (Option.some ("keras", InitKwargs.nn012 idim dr opt,
          FitKwargs.nnFit bs ep 1))) ∧
    (∀ fw ik fk,
      modelConfigStep m nj idim dr opt bs ep = Except.ok (Option.some (fw, ik, fk)) →
      ∀ d o, ik ≠ InitKwargs.nn34 d o) := by
  refine ⟨cond3_true m, ?_, ?_⟩
  · intro h1 h2
    simp [modelConfigStep, h1, h2, cond3_true m]
  · intro fw ik fk h d o
    unfold modelConfigStep at h
    split_ifs at h with h1 h2 h3 h4
    · simp only [Except.ok.injEq, Option.some.injEq, Prod.mk.injEq] at h
      obtain ⟨-, hik, -⟩ := h
      subst hik
      simp
    · rw [lookupGlobal_attn] at h
      exact Except.noConfusion h
    · simp only [Except.ok.injEq, Option.some.injEq, Prod.mk.injEq] at h
      obtain ⟨-, hik, -⟩ := h
      subst hik
      simp
    · exact absurd (cond3_true m) h3
    · simp at h

theorem claim_C1_witness :
    modelConfigStep "rf_reg" 4 10 (1/5) "sgd" 32 200 =
      Except.ok (Option.some ("keras", InitKwargs.nn012 10 (1/5) "sgd",
        FitKwargs.nnFit 32 200 1)) :=
  (claim_C1 "rf_reg" 4 10 32 200 (1/5) "sgd").2.1 (by decide) (by decide)

/-- C2 counterexample: for the args dict with `dirpath = None` and a
model name containing neither `reg` nor `cls`, `run` raises `TypeError`
at `Path(args['dirpath'])` (line 127), not the `ValueError` of line 167,
so the claim as stated ("for every args dict ... run raises a ValueError
immediately") is false. -/
theorem claim_C2_counterexample :
    run wOk { aOk with dirpath := Option.none, model_name := "xgb" } =
      ([], Except.error PyErr.typeError) ∧
    PyErr.typeError ≠ PyErr.valueError := by
  exact ⟨rfl, by decide⟩

/-- C2 (amended): `run` derives mltype eagerly from the model name —
`reg` wins over `cls`, `cls` otherwise — and, for every args dict whose
`dirpath` is not `None`, when the model name contains neither `reg` nor
`cls` the run fails with `ValueError` with an empty effect trace: no
file has been read, no output directory created, no score row
produced. -/
theorem claim_C2 (w : World) (a : Args) :
    (pyIn "reg" a.model_name = true → mltypeOf a.model_name = Except.ok "reg") ∧
    (pyIn "reg" a.model_name = false → pyIn "cls" a.model_name = true →
      mltypeOf a.model_name = Except.ok "cls") ∧
    (a.dirpath ≠ Option.none → pyIn "reg" a.model_name = false →
      pyIn "cls" a.model_name = false →
      run w a = ([], Except.error PyErr.valueError)) := by
  refine ⟨?_, ?_, ?_⟩
  · intro h
    simp [mltypeOf, h]
  · intro h1 h2
    simp [mltypeOf, h1, h2]
  · intro hd h1 h2
    obtain ⟨dp, hdp⟩ := Option.ne_none_iff_exists'.mp hd
    simp [run, hdp, pyPath, mltypeOf, h1, h2]

theorem claim_C2_witness :
    mltypeOf "lgb_reg" = Except.ok "reg" ∧
    run wOk { aOk with model_name := "xgb" } = ([], Except.error PyErr.valueError) :=
  ⟨(claim_C2 wOk aOk).1 (by decide),
   (claim_C2 wOk { aOk with model_name := "xgb" }).2.2 (by decide) (by decide) (by decide)⟩

theorem foldlMax_le {b : Nat} :
    ∀ (l : List Nat) (a : Nat), a ≤ b → (∀ x ∈ l, x ≤ b) → l.foldl max a ≤ b := by
  intro l
  induction l with
  | nil => intro a ha _; simpa using ha
  | cons x xs ih =>
    intro a ha h
    simp only [List.foldl_cons]
    exact ih (max a x) (max_le ha (h x (List.mem_cons_self x xs)))
      fun y hy => h y (List.mem_cons_of_mem x hy)

theorem foldlMax_init : ∀ (l : List Nat) (a : Nat), a ≤ l.foldl max a := by
  intro l
  induction l with
  | nil => intro a; simp
  | cons x xs ih =>
    intro a
    simp only [List.foldl_cons]
    exact le_trans (le_max_left a x) (ih (max a x))

theorem le_foldlMax : ∀ (l : List Nat) (a x : Nat), x ∈ l → x ≤ l.foldl max a := by
  intro l
  induction l with
  | nil => intro a x hx; cases hx
  | cons y ys ih =>
    intro a x hx
    simp only [List.foldl_cons]
    rcases List.mem_cons.mp hx with rfl | hx
    · exact le_trans (le_max_right a x) (foldlMax_init ys (max a x))
    · exact ih (max a y) x hx

theorem natRoot_le {k x n : Nat} (hx : x ≤ n ^ k) (hk : k ≠ 0) : natRoot k x ≤ n := by
  unfold natRoot
  apply foldlMax_le _ 0 (Nat.zero_le n)
  intro r hr
  rw [List.mem_filter] at hr
  have hrk : r ^ k ≤ x := by simpa using hr.2
  by_contra hgt
  push_neg at hgt
  have : n ^ k < r ^ k := Nat.pow_lt_pow_left hgt hk
  omega

theorem natRoot_pow_self {k n : Nat} (hk : k ≠ 0) : natRoot k (n ^ k) = n := by
  refine le_antisymm (natRoot_le le_rfl hk) ?_
  unfold natRoot
  apply le_foldlMax
  rw [List.mem_filter]
  refine ⟨List.mem_range.mpr ?_, by simp⟩
  have := Nat.le_self_pow hk n
  omega

theorem keepInc_length : ∀ (l : List Nat) (p : Nat), (keepInc p l).length ≤ l.length := by
  intro l
  induction l with
  | nil => intro p; simp [keepInc]
  | cons x xs ih =>
    intro p
    by_cases h : p < x
    · simp only [keepInc, if_pos h, List.length_cons]
      exact Nat.succ_le_succ (ih x)
    · simp only [keepInc, if_neg h, List.length_cons]
      exact le_trans (ih p) (Nat.le_succ _)

theorem keepInc_gt : ∀ (l : List Nat) (p y : Nat), y ∈ keepInc p l → p < y := by
  intro l
  induction l with
  | nil => intro p y hy; simp [keepInc] at hy
  | cons x xs ih =>
    intro p y hy
    by_cases h : p < x
    · rw [keepInc, if_pos h] at hy
      rcases List.mem_cons.mp hy with rfl | hy
      · exact h
      · exact lt_trans h (ih x y hy)
    · rw [keepInc, if_neg h] at hy
      exact ih p y hy

theorem keepInc_pairwise : ∀ (l : List Nat) (p : Nat), (keepInc p l).Pairwise (· < ·) := by
  intro l
  induction l with
  | nil => intro p; simp [keepInc]
  | cons x xs ih =>
    intro p
    by_cases h : p < x
    · rw [keepInc, if_pos h]
      exact List.Pairwise.cons (fun y hy => keepInc_gt xs x y hy) (ih x)
    · rw [keepInc, if_neg h]
      exact ih p

theorem keepInc_eq_nil : ∀ (l : List Nat) (p : Nat), (∀ y ∈ l, y ≤ p) → keepInc p l = [] := by
  intro l
  induction l with
  | nil => intro p _; rfl
  | cons x xs ih =>
    intro p h
    rw [keepInc, if_neg (by have := h x (List.mem_cons_self x xs); omega)]
    exact ih p fun y hy => h y (List.mem_cons_of_mem x hy)

theorem keepInc_getLast :
    ∀ (l : List Nat) (n p : Nat), (∀ y ∈ l, y ≤ n) → l.getLast? = some n → p < n →
      (keepInc p l).getLast? = some n := by
  intro l
  induction l with
  | nil => intro n p _ h _; simp at h
  | cons x xs ih =>
    intro n p hle hlast hp
    cases xs with
    | nil =>
      simp only [List.getLast?_singleton, Option.some.injEq] at hlast
      subst hlast
      rw [keepInc, if_pos hp]
      rfl
    | cons y ys =>
      have hlast2 : (y :: ys).getLast? = some n := by
        rwa [List.getLast?_cons_cons] at hlast
      have hle2 : ∀ z ∈ y :: ys, z ≤ n := fun z hz => hle z (List.mem_cons_of_mem x hz)
      by_cases h : p < x
      · rw [keepInc, if_pos h]
        rcases lt_or_eq_of_le (hle x (List.mem_cons_self _ _)) with hxn | hxn
        · have htail := ih n x hle2 hlast2 hxn
          cases hkeep : keepInc x (y :: ys) with
          | nil => rw [hkeep] at htail; simp at htail
          | cons a as =>
            rw [hkeep] at htail
            rw [List.getLast?_cons_cons]
            exact htail
        · subst hxn
          rw [keepInc_eq_nil (y :: ys) x hle2]
          rfl
      · rw [keepInc, if_neg h]
        exact ih n p hle2 hlast2 hp

theorem logCandidates_le {m n k : Nat} (hmn : m ≤ n) (hk : 2 ≤ k) :
    ∀ y ∈ logCandidates m n k, y ≤ n := by
  intro y hy
  unfold logCandidates at hy
  rw [List.mem_map] at hy
  obtain ⟨i, hi, rfl⟩ := hy
  rw [List.mem_range] at hi
  have hk1 : k - 1 ≠ 0 := by omega
  apply natRoot_le _ hk1
  have hsum : k - 1 - i + i = k - 1 ∨ i ≤ k - 1 := by omega
  calc m ^ (k - 1 - i) * n ^ i
      ≤ n ^ (k - 1 - i) * n ^ i :=
        Nat.mul_le_mul_right _ (Nat.pow_le_pow_left hmn _)
    _ = n ^ (k - 1 - i + i) := (pow_add n _ _).symm
    _ = n ^ (k - 1) := by
        congr 1
        omega

theorem logCandidates_last {m n k : Nat} (hk : 2 ≤ k) :
    (logCandidates m n k).getLast? = some n := by
  obtain ⟨j, rfl⟩ : ∃ j, k = j + 1 := ⟨k - 1, by omega⟩
  unfold logCandidates
  rw [List.range_succ, List.map_append, List.map_cons, List.map_nil,
    List.getLast?_concat]
  simp only [Nat.add_sub_cancel, Nat.sub_self, pow_zero, one_mul]
  rw [natRoot_pow_self (by omega)]

theorem linCandidates_le {n k : Nat} (hk : 1 ≤ k) : ∀ y ∈ linCandidates n k, y ≤ n := by
  intro y hy
  unfold linCandidates at hy
  rw [List.mem_map] at hy
  obtain ⟨i, hi, rfl⟩ := hy
  rw [List.mem_range] at hi
  have h1 : (i + 1) * n ≤ k * n := Nat.mul_le_mul_right n (by omega)
  calc (i + 1) * n / k ≤ k * n / k := Nat.div_le_div_right h1
    _ = n := Nat.mul_div_cancel_left n (by omega)

theorem linCandidates_last {n k : Nat} (hk : 1 ≤ k) :
    (linCandidates n k).getLast? = some n := by
  obtain ⟨j, rfl⟩ : ∃ j, k = j + 1 := ⟨k - 1, by omega⟩
  unfold linCandidates
  rw [List.range_succ, List.map_append, List.map_cons, List.map_nil,
    List.getLast?_concat]
  rw [Nat.mul_div_cancel_left n (by omega)]

/-- C3 (spec-modelled, `lrn_crv.py` absent from the sources): for all
valid `(n_train, n_shards, scale)` with `n_shards ≥ 2` — validity being
`1 ≤ min_size ≤ n_train` and the scale mode one of `linear`/`log10` —
the ShardScheduler output is a strictly increasing sequence of at most
`n_shards` integers whose last element equals `n_train`. -/
theorem claim_C3 (scale : String) (m n k : Nat)
    (hscale : scale = "linear" ∨ scale = "log10")
    (hm : 1 ≤ m) (hmn : m ≤ n) (hk : 2 ≤ k) :
    (shardScheduler scale m n k).Pairwise (· < ·) ∧
    (shardScheduler scale m n k).length ≤ k ∧
    (shardScheduler scale m n k).getLast? = some n := by
  have hn : 0 < n := lt_of_lt_of_le hm hmn
  rcases hscale with rfl | rfl
  · unfold shardScheduler
    rw [if_neg (by decide)]
    have hlen : (linCandidates n k).length = k := by simp [linCandidates]
    refine ⟨keepInc_pairwise _ 0, ?_,
      keepInc_getLast _ n 0 (linCandidates_le (by omega)) (linCandidates_last (by omega)) hn⟩
    calc (dedupeInc (linCandidates n k)).length
        ≤ (linCandidates n k).length := keepInc_length _ 0
      _ = k := hlen
  · unfold shardScheduler
    rw [if_pos rfl]
    have hlen : (logCandidates m n k).length = k := by simp [logCandidates]
    refine ⟨keepInc_pairwise _ 0, ?_,
      keepInc_getLast _ n 0 (logCandidates_le hmn hk) (logCandidates_last hk) hn⟩
    calc (dedupeInc (logCandidates m n k)).length
        ≤ (logCandidates m n k).length := keepInc_length _ 0
      _ = k := hlen

theorem claim_C3_witness :
    (shardScheduler "log10" 2 9 3).Pairwise (· < ·) ∧
    (shardScheduler "log10" 2 9 3).length ≤ 3 ∧
    (shardScheduler "log10" 2 9 3).getLast? = some 9 :=
  claim_C3 "log10" 2 9 3 (Or.inr rfl) (by decide) (by decide) (by decide)

theorem shuffleGo_mem :
    ∀ (fuel s : Nat) (l : List Nat) (y : Nat), y ∈ shuffleGo fuel s l → y ∈ l := by
  intro fuel
  induction fuel with
  | zero => intro s l y hy; exact hy
  | succ f ih =>
    intro s l y hy
    cases l with
    | nil => simp [shuffleGo] at hy
    | cons x xs =>
      simp only [shuffleGo] at hy
      rcases List.mem_cons.mp hy with h | h
      · have hi : s % (x :: xs).length < (x :: xs).length :=
          Nat.mod_lt _ (by simp)
        rw [h, List.getD_eq_getElem _ _ hi]
        exact List.getElem_mem hi
      · exact List.eraseIdx_subset _ _ (ih _ _ y h)

/-- C4 (spec-modelled, `lrn_crv.py` absent from the sources): the
ShardRunner shard-drawing step is a deterministic function of
`(seed, shard size, fold)`: its result is independent of the ambient
random stream, re-running it after a previous execution yields the
identical drawn shard, the ambient stream is left untouched (no fresh
random resample is consumed), and the drawn identifiers come from the
training fold. -/
theorem claim_C4 (amb amb2 : RngState) (seed size : Nat) (fold : List Nat) :
    (drawShard amb seed size fold).1 = (drawShard amb2 seed size fold).1 ∧
    (drawShard (drawShard amb seed size fold).2 seed size fold).1 =
      (drawShard amb seed size fold).1 ∧
    (drawShard amb seed size fold).2 = amb ∧
    (∀ y ∈ (drawShard amb seed size fold).1, y ∈ fold) := by
  refine ⟨rfl, rfl, rfl, ?_⟩
  intro y hy
  exact shuffleGo_mem _ _ _ y (List.take_subset _ _ hy)

theorem claim_C4_witness : (5 : Nat) ∈ [5, 6, 7] :=
  (claim_C4 ⟨0⟩ ⟨1⟩ 3 1 [5, 6, 7]).2.2.2 5 (by decide)

theorem optRead_events {o : Option DF} {p : String} {e : Event} (h : e ∈ optRead o p) :
    e = Event.readFile p := by
  cases o with
  | none => simp [optRead] at h
  | some d => simpa [optRead] using h

theorem loadPhase_events {w : World} {dp : String} {a : Args} {e : Event}
    (h : e ∈ (loadPhase w dp a).1) : ∃ p, e = Event.readFile p := by
  simp only [loadPhase] at h
  split at h
  · rcases List.mem_append.mp h with h | h <;> exact ⟨_, optRead_events h⟩
  · split at h
    · split at h
      · rcases List.mem_append.mp h with h | h <;> exact ⟨_, optRead_events h⟩
      · split at h
        · rcases List.mem_append.mp h with h | h
          · rcases List.mem_append.mp h with h | h <;> exact ⟨_, optRead_events h⟩
          · simp at h
            exact ⟨_, h⟩
        · rcases List.mem_append.mp h with h | h
          · rcases List.mem_append.mp h with h | h <;> exact ⟨_, optRead_events h⟩
          · simp at h
            rcases h with h | h <;> exact ⟨_, h⟩
    · rcases List.mem_append.mp h with h | h <;> exact ⟨_, optRead_events h⟩

theorem scaleResult_err {w : World} {s : Option String} {x : DF} {e : PyErr}
    (h : scaleResult w s x = Except.error e) : e = PyErr.attributeError := by
  unfold scaleResult at h
  split at h
  · exact (Except.error.injEq _ _).mp h |>.symm
  · split_ifs at h
    all_goals simp_all

theorem modelConfigStep_err {m : String} {nj idim bs ep : Nat} {dr : Rat} {opt : String}
    {e : PyErr} (h : modelConfigStep m nj idim dr opt bs ep = Except.error e) :
    e = PyErr.nameError "attn" := by
  unfold modelConfigStep at h
  split_ifs at h
  all_goals try simp_all
  rw [lookupGlobal_attn] at h
  simp only [Except.error.injEq] at h
  exact h.symm

theorem modelConfigStep_nn_reg (nj idim bs ep : Nat) (dr : Rat) (opt : String) :
    modelConfigStep "nn_reg" nj idim dr opt bs ep =
      Except.error (PyErr.nameError "attn") := by
  simp [modelConfigStep, lookupGlobal_attn]

theorem loopBody_construct {w : World} {a : Args} {mt : String} {clr : ClrKwargs}
    {src : String} {xd : Option DF} {k : Nat} {sc : String} {c : List String}
    (h : Event.engineConstruct k sc c ∈ (loopBody w a mt clr src xd).1) :
    sc = "log10" ∧ k = a.n_shards ∧
    ∃ idim r, modelConfigStep a.model_name a.n_jobs idim a.dr_rate a.opt
      a.batch_size a.epochs = Except.ok r := by
  simp only [loopBody] at h
  split at h
  · simp at h
  · split at h
    · simp at h
    · split at h
      · simp at h
      · simp at h
        obtain ⟨hk, hsc, -⟩ := h
        exact ⟨hsc, hk, _, _, by assumption⟩
      · simp at h
        obtain ⟨hk, hsc, -⟩ := h
        exact ⟨hsc, hk, _, _, by assumption⟩

theorem loopBody_call {w : World} {a : Args} {mt : String} {clr : ClrKwargs}
    {src : String} {xd : Option DF} {fw mt2 mn : String} {rs : Nat}
    {clr2 : ClrKwargs} {ik : InitKwargs} {fk : FitKwargs}
    (h : Event.engineCall fw mt2 mn rs clr2 ik fk ∈ (loopBody w a mt clr src xd).1) :
    rs = SEED ∧ clr2 = clr ∧ mt2 = mt ∧ mn = a.model_name ∧
    ∃ idim, modelConfigStep a.model_name a.n_jobs idim a.dr_rate a.opt
      a.batch_size a.epochs = Except.ok (Option.some (fw, ik, fk)) := by
  simp only [loopBody] at h
  split at h
  · simp at h
  · split at h
    · simp at h
    · split at h
      · simp at h
      · simp at h
      · simp at h
        obtain ⟨hfw, hmt, hmn, hrs, hclr, hik, hfk⟩ := h
        subst hfw hmt hmn hrs hclr hik hfk
        exact ⟨rfl, rfl, rfl, rfl, _, by assumption⟩

theorem loopBody_ok {w : World} {a : Args} {mt : String} {clr : ClrKwargs}
    {src : String} {xd : Option DF}
    (h : (loopBody w a mt clr src xd).2 = Except.ok ()) :
    ∃ idim r, modelConfigStep a.model_name a.n_jobs idim a.dr_rate a.opt
      a.batch_size a.epochs = Except.ok (Option.some r) := by
  simp only [loopBody] at h
  split at h
  · simp at h
  · split at h
    · simp at h
    · split at h
      · simp at h
      · simp at h
      · exact ⟨_, _, by assumption⟩

theorem loopBody_name_err {w : World} {a : Args} {mt : String} {clr : ClrKwargs}
    {src : String} {xd : Option DF} {nm : String}
    (h : (loopBody w a mt clr src xd).2 = Except.error (PyErr.nameError nm)) :
    nm = "attn" ∨ nm = "framework" := by
  simp only [loopBody] at h
  split at h
  · simp at h
  · split at h
    · rename_i heq
      simp only [Except.error.injEq] at h
      rw [h] at heq
      have := scaleResult_err heq
      exact absurd this (by simp)
    · split at h
      · rename_i heq
        simp only [Except.error.injEq] at h
        rw [h] at heq
        have := modelConfigStep_err heq
        simp only [PyErr.nameError.injEq] at this
        exact Or.inl this
      · simp at h
        exact Or.inr h.symm
      · simp at h

theorem pyPath_err {o : Option String} {e : PyErr} (h : pyPath o = Except.error e) :
    e = PyErr.typeError := by
  cases o with
  | none => simpa [pyPath] using h.symm
  | some s => simp [pyPath] at h

theorem mltypeOf_err {m : String} {e : PyErr} (h : mltypeOf m = Except.error e) :
    e = PyErr.valueError := by
  unfold mltypeOf at h
  split_ifs at h
  all_goals simp_all

theorem loadPhase_not_nameError {w : World} {dp : String} {a : Args} {nm : String} :
    (loadPhase w dp a).2 ≠ Except.error (PyErr.nameError nm) := by
  intro h
  simp only [loadPhase] at h
  split at h
  · simp at h
  · split at h
    · split at h
      · simp at h
      · split at h
        · simp at h
        · simp at h
    · simp at h

theorem loadPhase_fst_events {w : World} {dp : String} {a : Args} {evs : List Event}
    {r : Except PyErr (String × DF × Option DF × DF × DF)} {e : Event}
    (heq : loadPhase w dp a = (evs, r)) (h : e ∈ evs) : ∃ p, e = Event.readFile p := by
  apply loadPhase_events
  rw [heq]
  exact h

theorem run_construct {w : World} {a : Args} {k : Nat} {sc : String} {c : List String}
    (h : Event.engineConstruct k sc c ∈ (run w a).1) :
    sc = "log10" ∧ k = a.n_shards ∧
    ∃ idim r, modelConfigStep a.model_name a.n_jobs idim a.dr_rate a.opt
      a.batch_size a.epochs = Except.ok r := by
  simp only [run] at h
  split at h
  · simp at h
  · split at h
    · simp at h
    · split at h
      · split at h
        · rename_i heq
          obtain ⟨p, hp⟩ := loadPhase_fst_events heq h
          simp at hp
        · rename_i heq
          rcases List.mem_append.mp h with h | h
          · obtain ⟨p, hp⟩ := loadPhase_fst_events heq h
            simp at hp
          · exact loopBody_construct h
      · simp at h

theorem run_call {w : World} {a : Args} {fw mt2 mn : String} {rs : Nat}
    {clr2 : ClrKwargs} {ik : InitKwargs} {fk : FitKwargs}
    (h : Event.engineCall fw mt2 mn rs clr2 ik fk ∈ (run w a).1) :
    rs = SEED ∧ clr2 = mkClr a ∧ mn = a.model_name ∧
    ∃ idim, modelConfigStep a.model_name a.n_jobs idim a.dr_rate a.opt
      a.batch_size a.epochs = Except.ok (Option.some (fw, ik, fk)) := by
  simp only [run] at h
  split at h
  · simp at h
  · split at h
    · simp at h
    · split at h
      · split at h
        · rename_i heq
          obtain ⟨p, hp⟩ := loadPhase_fst_events heq h
          simp at hp
        · rename_i heq
          rcases List.mem_append.mp h with h | h
          · obtain ⟨p, hp⟩ := loadPhase_fst_events heq h
            simp at hp
          · obtain ⟨h1, h2, h3, h4, h5⟩ := loopBody_call h
            exact ⟨h1, h2, h4, h5⟩
      · simp at h

theorem run_ok {w : World} {a : Args} (h : (run w a).2 = Except.ok ()) :
    ∃ idim r, modelConfigStep a.model_name a.n_jobs idim a.dr_rate a.opt
      a.batch_size a.epochs = Except.ok (Option.some r) := by
  simp only [run] at h
  split at h
  · simp at h
  · split at h
    · simp at h
    · split at h
      · split at h
        · simp at h
        · exact loopBody_ok h
      · simp at h

theorem run_name_err {w : World} {a : Args} {nm : String}
    (h : (run w a).2 = Except.error (PyErr.nameError nm)) :
    nm = "attn" ∨ nm = "framework" := by
  simp only [run] at h
  split at h
  · rename_i heq
    simp only [Except.error.injEq] at h
    rw [h] at heq
    have := pyPath_err heq
    exact absurd this (by simp)
  · split at h
    · rename_i heq
      simp only [Except.error.injEq] at h
      rw [h] at heq
      have := mltypeOf_err heq
      exact absurd this (by simp)
    · split at h
      · split at h
        · rename_i heq
          simp only [Except.error.injEq] at h
          have h2 := congrArg Prod.snd heq
          rw [h] at h2
          exact absurd h2 loadPhase_not_nameError
        · exact loopBody_name_err h
      · rename_i hcond
        exact absurd rfl hcond

/-- C5: for every data source processed by `run` (the body of the
`for src, data in dfs.items()` loop), when `args['scaler']` is one of
`stnd`/`minmax`/`rbst`, the feature matrix is transformed exactly once,
by `fit_transform` of the selected scaler — the trace starts with that
single `fitTransform` event and contains no other — the column list is
preserved, and any construction or invocation of the `LearningCurve`
engine happens strictly after the transform. -/
theorem claim_C5 (w : World) (a : Args) (mt : String) (clr : ClrKwargs) (src : String)
    (x : DF) (s : String) (hs : a.scaler = Option.some s)
    (h3 : s = "stnd" ∨ s = "minmax" ∨ s = "rbst") :
    ∃ rest, (loopBody w a mt clr src (Option.some x)).1 = Event.fitTransform s :: rest ∧
      (∀ e ∈ rest, ∀ s2, e ≠ Event.fitTransform s2) ∧
      (∀ k sc c, Event.engineConstruct k sc c ∈ (loopBody w a mt clr src (Option.some x)).1 →
        Event.engineConstruct k sc c ∈ rest ∧ c = x.cols) ∧
      (∀ fw mt2 mn rs clr2 ik fk,
        Event.engineCall fw mt2 mn rs clr2 ik fk ∈ (loopBody w a mt clr src (Option.some x)).1 →
        Event.engineCall fw mt2 mn rs clr2 ik fk ∈ rest) := by
  have hsc : scaleResult w a.scaler x =
      Except.ok (s, ⟨x.cols, w.applyScaler s x.rows⟩) := by
    rw [hs]
    rcases h3 with rfl | rfl | rfl <;> simp [scaleResult]
  rcases hmc : modelConfigStep a.model_name a.n_jobs x.cols.length a.dr_rate a.opt
      a.batch_size a.epochs with e | _ | ⟨fw, ik, fk⟩
  · refine ⟨[Event.mkdir (outdirName w a src),
      Event.writeFile (outdirName w a src ++ "/logfile.log"),
      Event.writeFile (outdirName w a src ++ "/args.txt")], ?_, ?_, ?_, ?_⟩
    · simp [loopBody, hsc, hmc]
    · intro e2 he s2
      rcases List.mem_cons.mp he with rfl | he
      · simp
      · rcases List.mem_cons.mp he with rfl | he
        · simp
        · simp at he
          subst he
          simp
    · intro k sc c hc
      simp [loopBody, hsc, hmc] at hc
    · intro fw mt2 mn rs clr2 ik fk hc
      simp [loopBody, hsc, hmc] at hc
  · refine ⟨[Event.mkdir (outdirName w a src),
      Event.writeFile (outdirName w a src ++ "/logfile.log"),
      Event.writeFile (outdirName w a src ++ "/args.txt"),
      Event.engineConstruct a.n_shards "log10" x.cols], ?_, ?_, ?_, ?_⟩
    · simp [loopBody, hsc, hmc]
    · intro e2 he s2
      simp at he
      rcases he with rfl | rfl | rfl | rfl <;> simp
    · intro k sc c hc
      simp [loopBody, hsc, hmc] at hc
      obtain ⟨hk, hsc2, hc2⟩ := hc
      subst hk hsc2 hc2
      simp
    · intro fw mt2 mn rs clr2 ik fk hc
      simp [loopBody, hsc, hmc] at hc
  · refine ⟨[Event.mkdir (outdirName w a src),
      Event.writeFile (outdirName w a src ++ "/logfile.log"),
      Event.writeFile (outdirName w a src ++ "/args.txt"),
      Event.engineConstruct a.n_shards "log10" x.cols,
      Event.engineCall fw mt a.model_name SEED clr ik fk], ?_, ?_, ?_, ?_⟩
    · simp [loopBody, hsc, hmc]
    · intro e2 he s2
      simp at he
      rcases he with rfl | rfl | rfl | rfl | rfl <;> simp
    · intro k sc c hc
      simp [loopBody, hsc, hmc] at hc
      obtain ⟨hk, hsc2, hc2⟩ := hc
      subst hk hsc2 hc2
      simp
    · intro fw2 mt2 mn rs clr2 ik2 fk2 hc
      simp [loopBody, hsc, hmc] at hc
      obtain ⟨h1, h2, h3, h4, h5, h6, h7⟩ := hc
      subst h1 h2 h3 h4 h5 h6 h7
      simp

theorem claim_C5_witness :
    ∃ rest, (loopBody wOk aOk "reg" (mkClr aOk) "src1" (Option.some dfX)).1 =
        Event.fitTransform "stnd" :: rest ∧
      (∀ e ∈ rest, ∀ s2, e ≠ Event.fitTransform s2) ∧
      (∀ k sc c, Event.engineConstruct k sc c ∈
        (loopBody wOk aOk "reg" (mkClr aOk) "src1" (Option.some dfX)).1 →
        Event.engineConstruct k sc c ∈ rest ∧ c = dfX.cols) ∧
      (∀ fw mt2 mn rs clr2 ik fk, Event.engineCall fw mt2 mn rs clr2 ik fk ∈
        (loopBody wOk aOk "reg" (mkClr aOk) "src1" (Option.some dfX)).1 →
        Event.engineCall fw mt2 mn rs clr2 ik fk ∈ rest) :=
  claim_C5 wOk aOk "reg" (mkClr aOk) "src1" dfX "stnd" rfl (Or.inl rfl)

/-- C6 counterexample: no input whatsoever makes `run` construct the
engine with scale mode `linear`, so the scale mode is not a
caller-supplied element of a two-value set. -/
theorem claim_C6_counterexample :
    ¬ ∃ (w : World) (a : Args) (k : Nat) (c : List String),
      Event.engineConstruct k "linear" c ∈ (run w a).1 := by
  rintro ⟨w, a, k, c, h⟩
  obtain ⟨hsc, -, -⟩ := run_construct h
  exact absurd hsc (by decide)

/-- C6 (amended): the shard-schedule scale mode is hardcoded, not
caller-supplied: every construction of the `LearningCurve` engine by
`run` passes `shard_step_scale='log10'` (line 294) regardless of the
args, while the tick count does come from `args['n_shards']`. -/
theorem claim_C6 (w : World) (a : Args) (k : Nat) (sc : String) (c : List String)
    (h : Event.engineConstruct k sc c ∈ (run w a).1) :
    sc = "log10" ∧ k = a.n_shards := by
  obtain ⟨h1, h2, -⟩ := run_construct h
  exact ⟨h1, h2⟩

theorem claim_C6_witness :
    ("log10" : String) = "log10" ∧ (5 : Nat) = aOk.n_shards :=
  claim_C6 wOk aOk 5 "log10" ["g1", "g2"] (by decide)

/-- C7 counterexample: no invocation of `run`, for any input, passes a
`random_state` different from the module constant `SEED = 42` to the
learning-curve generation call, so the seed does not vary with the
inputs. -/
theorem claim_C7_counterexample :
    ¬ ∃ (w : World) (a : Args) (fw mt2 mn : String) (rs : Nat) (clr2 : ClrKwargs)
      (ik : InitKwargs) (fk : FitKwargs),
      Event.engineCall fw mt2 mn rs clr2 ik fk ∈ (run w a).1 ∧ rs ≠ SEED := by
  rintro ⟨w, a, fw, mt2, mn, rs, clr2, ik, fk, h, hne⟩
  exact hne (run_call h).1

theorem modelConfigStep_lgb {m : String} {nj idim bs ep : Nat} {dr : Rat}
    {opt fw : String} {nj2 r2 : Nat} {fk : FitKwargs}
    (h : modelConfigStep m nj idim dr opt bs ep =
      Except.ok (Option.some (fw, InitKwargs.lgb nj2 r2, fk))) : r2 = SEED := by
  unfold modelConfigStep at h
  split_ifs at h
  · simp only [Except.ok.injEq, Option.some.injEq, Prod.mk.injEq,
      InitKwargs.lgb.injEq] at h
    exact h.2.1.2.symm
  · rw [lookupGlobal_attn] at h
    simp at h
  · simp at h
  · simp at h
  · simp at h

/-- C7 (amended): the random seed is a fixed module constant, not a
caller-supplied run parameter: the `random_state` passed to the
learning-curve generation call and the `random_state` inside the
lightgbm `init_kwargs` are `SEED = 42` for every invocation of `run`. -/
theorem claim_C7 (w : World) (a : Args) (fw mt2 mn : String) (rs : Nat)
    (clr2 : ClrKwargs) (ik : InitKwargs) (fk : FitKwargs)
    (h : Event.engineCall fw mt2 mn rs clr2 ik fk ∈ (run w a).1) :
    rs = 42 ∧ ∀ nj r2, ik = InitKwargs.lgb nj r2 → r2 = 42 := by
  obtain ⟨h1, -, -, idim, hmc⟩ := run_call h
  refine ⟨h1, ?_⟩
  intro nj r2 hik
  subst hik
  exact modelConfigStep_lgb hmc

theorem claim_C7_witness :
    (42 : Nat) = 42 ∧ ∀ nj r2, InitKwargs.lgb 4 42 = InitKwargs.lgb nj r2 → r2 = 42 :=
  claim_C7 wOk aOk "lightgbm" "reg" "lgb_reg" 42 (mkClr aOk) (InitKwargs.lgb 4 42)
    (FitKwargs.lgbFit false) (by decide)

/-- C8: the cyclical-learning-rate configuration handed to the
learning-curve engine call is exactly the four-key mapping built from
`args['clr_mode']`, `args['clr_base_lr']`, `args['clr_max_lr']` and
`args['clr_gamma']` (lines 150-151), the mode being optional
(`Option String`). -/
theorem claim_C8 (w : World) (a : Args) (fw mt2 mn : String) (rs : Nat)
    (clr2 : ClrKwargs) (ik : InitKwargs) (fk : FitKwargs)
    (h : Event.engineCall fw mt2 mn rs clr2 ik fk ∈ (run w a).1) :
    clr2 = ClrKwargs.mk a.clr_mode a.clr_base_lr a.clr_max_lr a.clr_gamma :=
  (run_call h).2.1

theorem claim_C8_witness :
    mkClr aOk = ClrKwargs.mk aOk.clr_mode aOk.clr_base_lr aOk.clr_max_lr aOk.clr_gamma :=
  claim_C8 wOk aOk "lightgbm" "reg" "lgb_reg" 42 (mkClr aOk) (InitKwargs.lgb 4 42)
    (FitKwargs.lgbFit false) (by decide)

/-- C9: the model-configuration step for `model_name == 'nn_reg'`
evaluates the undefined name `attn` (line 273) and raises `NameError`;
consequently every invocation of `run` with `model_name == 'nn_reg'`
fails before the `LearningCurve` engine is constructed or invoked, so
the `nn_reg` variant can never be trained through this driver. -/
theorem claim_C9 (w : World) (a : Args) (nj idim bs ep : Nat) (dr : Rat) (opt : String) :
    modelConfigStep "nn_reg" nj idim dr opt bs ep =
      Except.error (PyErr.nameError "attn") ∧
    (a.model_name = "nn_reg" →
      (∀ k sc c, Event.engineConstruct k sc c ∉ (run w a).1) ∧
      (∀ fw mt2 mn rs clr2 ik fk,
        Event.engineCall fw mt2 mn rs clr2 ik fk ∉ (run w a).1) ∧
      ∃ e, (run w a).2 = Except.error e) := by
  refine ⟨modelConfigStep_nn_reg nj idim bs ep dr opt, ?_⟩
  intro hm
  refine ⟨?_, ?_, ?_⟩
  · intro k sc c hc
    obtain ⟨-, -, idim2, r, hmc⟩ := run_construct hc
    rw [hm, modelConfigStep_nn_reg] at hmc
    simp at hmc
  · intro fw mt2 mn rs clr2 ik fk hc
    obtain ⟨-, -, -, idim2, hmc⟩ := run_call hc
    rw [hm, modelConfigStep_nn_reg] at hmc
    simp at hmc
  · cases hr : (run w a).2 with
    | error e => exact ⟨e, rfl⟩
    | ok u =>
      cases u
      obtain ⟨idim2, r, hmc⟩ := run_ok hr
      rw [hm, modelConfigStep_nn_reg] at hmc
      simp at hmc

theorem claim_C9_witness :
    modelConfigStep "nn_reg" 4 2 1 "sgd" 32 200 =
      Except.error (PyErr.nameError "attn") ∧
    (∀ k sc c, Event.engineConstruct k sc c ∉
      (run wOk { aOk with model_name := "nn_reg" }).1) ∧
    (∀ fw mt2 mn rs clr2 ik fk, Event.engineCall fw mt2 mn rs clr2 ik fk ∉
      (run wOk { aOk with model_name := "nn_reg" }).1) ∧
    ∃ e, (run wOk { aOk with model_name := "nn_reg" }).2 = Except.error e := by
  have h := claim_C9 wOk { aOk with model_name := "nn_reg" } 4 2 32 200 1 "sgd"
  exact ⟨h.1, (h.2 rfl).1, (h.2 rfl).2.1, (h.2 rfl).2.2⟩

/-- C10: with `args['dirpath'] == None`, `run` raises `TypeError` at
`Path(None)` (line 127) before reading any file (empty trace); a
successfully constructed path is never `None`, so the branch test
`if dirpath is not None` (line 196) is always true, the
`elif dname == 'combined'` branch is unreachable, and its unbound name
`dname` is never evaluated (no run ever fails with that NameError). -/
theorem claim_C10 (w : World) (a : Args) :
    (a.dirpath = Option.none → run w a = ([], Except.error PyErr.typeError)) ∧
    (∀ s, pyPath (Option.some s) = Except.ok s ∧ pyIsNotNone (PyVal.path s) = true) ∧
    (run w a).2 ≠ Except.error (PyErr.nameError "dname") := by
  refine ⟨?_, ?_, ?_⟩
  · intro hd
    simp [run, hd, pyPath]
  · intro s
    exact ⟨rfl, rfl⟩
  · intro h
    rcases run_name_err h with h | h
    · exact absurd h (by decide)
    · exact absurd h (by decide)

theorem claim_C10_witness :
    run wOk { aOk with dirpath := Option.none } = ([], Except.error PyErr.typeError) ∧
    pyIsNotNone (PyVal.path "d") = true ∧
    (run wOk aOk).2 ≠ Except.error (PyErr.nameError "dname") :=
  ⟨(claim_C10 wOk { aOk with dirpath := Option.none }).1 rfl,
   ((claim_C10 wOk aOk).2.1 "d").2,
   (claim_C10 wOk aOk).2.2⟩
